import Mathlib

/-! dutchcoders/moon: process supervisor and output multiplexer.

A shallow embedding of `moon.go` and `utils.go`, followed by theorems about the
command runner (`Moon.run`), the line readers, the event dispatcher (the
`select` loop of `main`) and the intake loop.

Modelling conventions.

* A Go `string` is a `List Char` (`GoString`): a sequence of Unicode code
  points. Every separator the program uses (`,`, space, `;`, newline) is ASCII,
  so on valid UTF-8 text splitting by bytes and by code points coincide.
* Go's `int` is a 64 bit two's complement integer: an `Int` reduced by
  `wrapInt64` after each arithmetic step.
* Channel sends are recorded as a trace of `Event`s. The interleaving of the
  goroutines started by `run` is decided by an explicit schedule.
* The operating system (pipe creation, process start, the bytes a process
  writes), the wall clock, the regular expression engine and the colour library
  are parameters of the model.
-/

namespace Moon

/-- A Go string, as the sequence of its code points. -/
abbrev GoString := List Char

/-! ## Library functions of Go used by the program -/

/-- The call `strings.Split(s, sep)` for a one character separator: the pieces of `s`
between consecutive occurrences of `sep`; always at least one piece. -/
def stringsSplit (sep : Char) : GoString → List GoString
  | [] => [[]]
  | c :: cs =>
    if c = sep then [] :: stringsSplit sep cs
    else
      match stringsSplit sep cs with
      | [] => [[c]]
      | p :: ps => (c :: p) :: ps

/-- The call `strings.Join(elems, sep)` for a one character separator. -/
def stringsJoin (sep : Char) : List GoString → GoString
  | [] => []
  | [p] => p
  | p :: q :: ps => p ++ sep :: stringsJoin sep (q :: ps)

/-- The predicate `unicode.IsSpace`: the white space code points of Unicode. -/
def isSpace (c : Char) : Bool :=
  let n := c.toNat
  (9 ≤ n && n ≤ 13) || n = 32 || n = 0x85 || n = 0xA0 || n = 0x1680 ||
  (0x2000 ≤ n && n ≤ 0x200a) || n = 0x2028 || n = 0x2029 || n = 0x202f ||
  n = 0x205f || n = 0x3000

/-- The call `strings.TrimSpace(s)`: `s` without leading and trailing white space. -/
def stringsTrimSpace (s : GoString) : GoString :=
  ((s.dropWhile isSpace).reverse.dropWhile isSpace).reverse

/-- The call `strings.HasPrefix(s, prefix)`. -/
def stringsHasPrefix (s pre : GoString) : Bool :=
  pre.isPrefixOf s

/-- Decimal rendering of a natural number (the verb `%d` on a non-negative `int`). -/
def fmtNat (n : Nat) : GoString :=
  (Nat.repr n).data

/-- Decimal rendering of an integer (the verb `%d`). -/
def fmtInt : Int → GoString
  | Int.ofNat n => fmtNat n
  | Int.negSucc n => '-' :: fmtNat (n + 1)

/-- Reduction of an integer to the range of Go's 64 bit `int`. -/
def wrapInt64 (x : Int) : Int :=
  (x + 2 ^ 63) % 2 ^ 64 - 2 ^ 63

/-! ### `fmt`: formatting with a format string and no operands

`fmt.Printf(f)` and `fmt.Fprintf(w, f)` interpret `f` as a format string even
when no operand follows. `fmtSprintf` follows `doPrintf` of package `fmt` for an
empty operand list. -/

/-- The helper `parsenum` of package `fmt`: reads a decimal number; returns the number,
whether a digit was read, and the unread text (a number above a million gives
up and skips to the end). -/
def parsenum : Nat → Bool → GoString → Nat × Bool × GoString
  | num, isnum, [] => (num, isnum, [])
  | num, isnum, c :: cs =>
    if c.isDigit then
      if num > 1000000 then (0, false, [])
      else parsenum (num * 10 + (c.toNat - '0'.toNat)) true cs
    else (num, isnum, c :: cs)

/-- The helper `parseArgNumber` of package `fmt` on text that starts with `[`: the
number of characters to skip and whether `[n]` was well formed. -/
def parseArgNumber (format : GoString) : Nat × Bool :=
  if format.length < 3 then (1, false)
  else
    let inner := (format.drop 1).takeWhile (fun c => c != ']')
    if inner.length + 1 < format.length then
      let r := parsenum 0 false inner
      if inner.isEmpty || !r.2.1 || !r.2.2.isEmpty then (inner.length + 2, false)
      else (inner.length + 2, true)
    else (1, false)

/-- The helper `argNumber` of package `fmt` with no operands: the unread text, whether
an index `[` was present (which makes the argument number bad, as no operand
exists) and the new value of `afterIndex`. -/
def argNumber (cs : GoString) : GoString × Bool × Bool :=
  match cs with
  | '[' :: _ =>
    let r := parseArgNumber cs
    (cs.drop r.1, true, r.2)
  | _ => (cs, false, false)

/-- One verb of a format string, after its `%`, when no operand is left: the text
written and the unread rest of the format. -/
def fmtVerb (cs0 : GoString) : GoString × GoString :=
  -- flags
  let cs1 := cs0.dropWhile (fun c => c == '#' || c == '0' || c == '+' || c == '-' || c == ' ')
  -- explicit argument index
  let a1 := argNumber cs1
  let good1 := !a1.2.1
  -- width: (rest, written, goodArgNum, afterIndex)
  let w : GoString × GoString × Bool × Bool :=
    match a1.1 with
    | '*' :: r => (r, "%!(BADWIDTH)".data, good1, false)
    | cs =>
      let n := parsenum 0 false cs
      (n.2.2, [], good1 && !(a1.2.2 && n.2.1), a1.2.2)
  -- precision (`i+1 < end`: a dot that ends the format is left to be the verb)
  let p : GoString × GoString × Bool × Bool :=
    match w.1 with
    | '.' :: c :: r0 =>
      let good := w.2.2.1 && !w.2.2.2
      let a2 := argNumber (c :: r0)
      match a2.1 with
      | '*' :: r2 => (r2, w.2.1 ++ "%!(BADPREC)".data, good && !a2.2.1, false)
      | cs => ((parsenum 0 false cs).2.2, w.2.1, good && !a2.2.1, a2.2.2)
    | _ => w
  -- argument index after width and precision
  let a3 : GoString × Bool :=
    if p.2.2.2 then (p.1, p.2.2.1)
    else
      let a := argNumber p.1
      (a.1, p.2.2.1 && !a.2.1)
  match a3.1 with
  | [] => (p.2.1 ++ "%!(NOVERB)".data, [])
  | v :: r =>
    if v = '%' then (p.2.1 ++ ['%'], r)
    else if !a3.2 then (p.2.1 ++ "%!".data ++ v :: "(BADINDEX)".data, r)
    else (p.2.1 ++ "%!".data ++ v :: "(MISSING)".data, r)

/-- The loop of `doPrintf` with no operands; `fuel` bounds the number of steps. -/
def fmtSprintfLoop : Nat → GoString → GoString
  | 0, _ => []
  | _, [] => []
  | fuel + 1, c :: cs =>
    if c = '%' then
      let r := fmtVerb cs
      r.1 ++ fmtSprintfLoop fuel r.2
    else c :: fmtSprintfLoop fuel cs

/-- The text `fmt.Sprintf(format)` produces (also written by `fmt.Printf(format)` and
`fmt.Fprintf(w, format)`): `format` with every `%` sequence interpreted. -/
def fmtSprintf (format : GoString) : GoString :=
  fmtSprintfLoop (format.length + 1) format

/-! ## utils.go: the line formatter -/

/-- A point in time, known only through `Time.Format(layout)`. -/
structure Time where
  /-- The rendering of the time under a layout. -/
  Format : GoString → GoString

/-- The struct `value` of utils.go. -/
structure value where
  /-- Time of the entry. -/
  Time : Time
  /-- Message text. -/
  Message : GoString
  /-- Host label. -/
  Host : GoString

/-- The type `optionFn` of utils.go: Go mutates `*value`, here the new value is returned. -/
abbrev optionFn := value → value

/-- The option `Date(t)`. -/
def Date (t : Time) : optionFn := fun v => { v with Time := t }

/-- The option `Host(s)`. -/
def Host (s : GoString) : optionFn := fun v => { v with Host := s }

/-- The option `Message(s)`. -/
def Message (s : GoString) : optionFn := fun v => { v with Message := s }

/-- The formatter of the placeholder `time`. -/
def timeFormatter (v : value) (layout : GoString) : GoString := v.Time.Format layout

/-- The formatter of the placeholder `host`. -/
def hostFormatter (v : value) (_layout : GoString) : GoString := v.Host

/-- The formatter of the placeholder `message`. -/
def messageFormatter (v : value) (_layout : GoString) : GoString := v.Message

/-- The table `colors`: colour names and their SGR codes. -/
def colors : List (GoString × Nat) :=
  [("black".data, 30), ("red".data, 31), ("green".data, 32), ("yellow".data, 33),
   ("blue".data, 34), ("magenta".data, 35), ("cyan".data, 36), ("white".data, 37),
   ("hiblack".data, 90), ("hired".data, 91), ("higreen".data, 92), ("hiyellow".data, 93),
   ("hiblue".data, 94), ("himagenta".data, 95), ("hicyan".data, 96), ("hiwhite".data, 97),
   ("bg-black".data, 40), ("bg-red".data, 41), ("bg-green".data, 42), ("bg-yellow".data, 43),
   ("bg-blue".data, 44), ("bg-magenta".data, 45), ("bg-cyan".data, 46), ("bg-white".data, 47),
   ("bg-hiblack".data, 100), ("bg-hired".data, 101), ("bg-higreen".data, 102),
   ("bg-hiyellow".data, 103), ("bg-hiblue".data, 104), ("bg-himagenta".data, 105),
   ("bg-hicyan".data, 106), ("bg-hiwhite".data, 107)]

/-- The formatter of the placeholder `color`: an SGR escape sequence. -/
def colorFormatter (_v : value) (layout : GoString) : GoString :=
  if layout = "reset".data then "\x1b[0m".data
  else
    let args := stringsSplit ';' layout
    let bla := args.map fun a =>
      match colors.lookup a with
      | some c => fmtNat c
      | none => a
    "\x1b[".data ++ stringsJoin ';' bla ++ "m".data

/-- The table `layouts`: default layout of a placeholder. -/
def layouts (name : GoString) : Option GoString :=
  if name = "time".data then some "20060102".data
  else if name = "color".data then some "reset".data
  else none

/-- The table `formatters`. -/
def formatters (name : GoString) : Option (value → GoString → GoString) :=
  if name = "time".data then some timeFormatter
  else if name = "message".data then some messageFormatter
  else if name = "host".data then some hostFormatter
  else if name = "color".data then some colorFormatter
  else none

/-- One match of `formatRe`, as the indices `FindAllStringSubmatchIndex` reports:
`m0, m1` the whole match, `m2, m3` the name, `m4, m5` the argument when present. -/
structure FormatMatch where
  /-- Start of the match. -/
  m0 : Nat
  /-- End of the match. -/
  m1 : Nat
  /-- Start of the name. -/
  m2 : Nat
  /-- End of the name. -/
  m3 : Nat
  /-- Start and end of the argument, `none` for Go's `-1`. -/
  m45 : Option (Nat × Nat)
deriving DecidableEq

/-- Length of the argument that the part `(.*?[^\\])` followed by the closing brace
matches at the head of the text after the colon: the least `k ≥ 1` such that position `k`
holds the closing brace, position `k - 1` is not a backslash and no line break
occurs before position `k - 1`. `prev` is the character before the head. -/
def formatReArg : Option Char → Nat → GoString → Option Nat
  | _, _, [] => none
  | none, k, c :: cs => formatReArg (some c) (k + 1) cs
  | some p, k, c :: cs =>
    if c = '\x7d' ∧ p ≠ '\\' then some k
    else if p = '\n' then none
    else formatReArg (some c) (k + 1) cs

/-- A match of `formatRe` anchored at the head of the text: the length of the name
and of the argument (if any). -/
def formatReHere (cs : GoString) : Option (Nat × Option Nat) :=
  match cs with
  | '%' :: '\x7b' :: rest =>
    let name := rest.takeWhile fun c => 'a' ≤ c ∧ c ≤ 'z'
    if name.isEmpty then none
    else
      match rest.drop name.length with
      | ':' :: a => (formatReArg none 0 a).map fun k => (name.length, some k)
      | '\x7d' :: _ => some (name.length, none)
      | _ => none
  | _ => none

/-- All matches of `formatRe` from position `pos` on, leftmost first and without
overlap; `skip` characters still belong to the previous match. -/
def formatReFindFrom : Nat → Nat → GoString → List FormatMatch
  | _, _, [] => []
  | pos, skip + 1, _ :: cs => formatReFindFrom (pos + 1) skip cs
  | pos, 0, c :: cs =>
    match formatReHere (c :: cs) with
    | some (n, none) =>
      { m0 := pos, m1 := pos + n + 3, m2 := pos + 2, m3 := pos + 2 + n, m45 := none } ::
        formatReFindFrom (pos + 1) (n + 2) cs
    | some (n, some k) =>
      { m0 := pos, m1 := pos + n + k + 4, m2 := pos + 2, m3 := pos + 2 + n,
        m45 := some (pos + n + 3, pos + n + 3 + k) } ::
        formatReFindFrom (pos + 1) (n + k + 3) cs
    | none => formatReFindFrom (pos + 1) 0 cs

/-- The call `formatRe.FindAllStringSubmatchIndex(format, -1)`. -/
def formatReFindAll (format : GoString) : List FormatMatch :=
  formatReFindFrom 0 0 format

/-- The slice `s[i:j]`. -/
def slice (s : GoString) (i j : Nat) : GoString :=
  (s.take j).drop i

/-- The function `String` of utils.go: `format` with every placeholder replaced by the
output of its formatter; `now` is the result of `time.Now()`. -/
def String (now : Time) (format : GoString) (options : List optionFn) : GoString :=
  let v := options.foldl (fun v option => option v) { Time := now, Message := [], Host := [] }
  let found := formatReFindAll format
  if found.isEmpty then format
  else
    let r := found.foldl
      (fun (acc : Nat × GoString) m =>
        let str := acc.2 ++ slice format acc.1 m.m0
        let name := slice format m.m2 m.m3
        let layout0 := match layouts name with
          | some l => l
          | none => []
        let layout := match m.m45 with
          | some (a, b) => slice format a b
          | none => layout0
        let str := match formatters name with
          | some formatter => str ++ formatter v layout
          | none => str ++ "%INVALID".data
        (m.m1, str))
      (0, [])
    r.2 ++ format.drop r.1

/-! ## Regular expressions and colours (external packages) -/

/-- A compiled regular expression (`*regexp.Regexp`), known through the two methods the
program calls. -/
structure Regexp where
  /-- The method `MatchString(s)`: does `s` contain a match. -/
  MatchString : GoString → Bool
  /-- The method `ReplaceAllString(src, repl)`: `src` with every match replaced by the
  expansion of the template `repl`. -/
  ReplaceAllString : GoString → GoString → GoString

/-- Does `s` contain `p` as a contiguous part. -/
def hasInfix (p : GoString) : GoString → Bool
  | [] => p.isEmpty
  | c :: cs => p.isPrefixOf (c :: cs) || hasInfix p cs

/-- The name after a `$` of a replacement template (`extract` of package `regexp`), with
the unread rest; `none` when malformed. Names are made of ASCII letters, digits
and underscores. -/
def templateName (str : GoString) : Option (GoString × GoString) :=
  let brace := str.head? = some '\x7b'
  let str1 := if brace then str.drop 1 else str
  let name := str1.takeWhile fun c => c.isAlphanum || c == '_'
  if name.isEmpty then none
  else
    let rest := str1.drop name.length
    if brace then
      match rest with
      | '\x7d' :: r => some (name, r)
      | _ => none
    else some (name, rest)

/-- Expansion of a replacement template for an expression without capture groups
(`expand` of package `regexp`): `$0` stands for the match `m`, `$$` for a dollar
sign, any other name for the empty text. -/
def templateExpand (m : GoString) : Nat → GoString → GoString
  | 0, _ => []
  | _, [] => []
  | fuel + 1, c :: t =>
    if c = '$' then
      match t with
      | '$' :: t2 => '$' :: templateExpand m fuel t2
      | _ =>
        match templateName t with
        | none => '$' :: templateExpand m fuel t
        | some (name, rest) => (if name = ['0'] then m else []) ++ templateExpand m fuel rest
    else c :: templateExpand m fuel t

/-- Replacement of the non-overlapping occurrences of the text `p`, leftmost first;
`skip` characters still belong to the previous occurrence. -/
def literalReplace (p with_ : GoString) : Nat → GoString → GoString
  | _, [] => []
  | skip + 1, _ :: cs => literalReplace p with_ skip cs
  | 0, c :: cs =>
    if p.isPrefixOf (c :: cs) then with_ ++ literalReplace p with_ (p.length - 1) cs
    else c :: literalReplace p with_ 0 cs

/-- The expression `regexp.Compile` returns for a non-empty pattern `c :: cs`
without metacharacters: it matches exactly the text `c :: cs`. -/
def Regexp.literal (c : Char) (cs : GoString) : Regexp where
  MatchString s := hasInfix (c :: cs) s
  ReplaceAllString src repl :=
    literalReplace (c :: cs) (templateExpand (c :: cs) (repl.length + 1) repl) 0 src

/-- The method `Sprintf` of `color.New(color.FgBlack, color.BgYellow)` (package
fatih/color) on a terminal with colours enabled: the formatted text between the
SGR sequence of the attributes 30 and 43 and the reset sequence. -/
def highlightSprintf (format : GoString) : GoString :=
  "\x1b[30;43m".data ++ fmtSprintf format ++ "\x1b[0m".data

/-! ## moon.go: the command runner -/

/-- The struct `Print`: one line of output of a command. -/
structure Print where
  /-- Label of the command. -/
  Host : GoString
  /-- The line. -/
  Line : GoString
deriving DecidableEq

/-- A message sent on one of the four channels of `Moon`. -/
inductive Event where
  /-- A send on `startedChan`. -/
  | started (name : GoString)
  /-- A send on `finishedChan`. -/
  | finished (name : GoString)
  /-- A send on `outChan`. -/
  | out (p : Print)
  /-- A send on `errChan`. -/
  | err (p : Print)
deriving DecidableEq

/-- How a stream ends after its data: `io.EOF` or another read error. -/
inductive ReadError where
  /-- The error `io.EOF`. -/
  | EOF
  /-- Any other error, with its message. -/
  | other (msg : GoString)
deriving DecidableEq

/-- A readable stream (the read side of a pipe): the bytes still to come and the error
that follows them. -/
structure Pipe where
  /-- Bytes not yet read. -/
  data : GoString
  /-- Error reported once the data is exhausted. -/
  ending : ReadError
deriving DecidableEq

/-- What the operating system answers for one `*exec.Cmd`: the results of
`StdoutPipe`, `StderrPipe` and `Start` (an error is its message). -/
structure Cmd where
  /-- Result of `cmd.StdoutPipe()`. -/
  StdoutPipe : Except GoString Pipe
  /-- Result of `cmd.StderrPipe()`. -/
  StderrPipe : Except GoString Pipe
  /-- Result of `cmd.Start()`: `none` for a nil error. -/
  Start : Option GoString

/-- The method `ReadString(delim)` of `bufio.Reader`: the text up to and including the first
`delim`; when the stream ends first, the data read so far together with the
error. Returns the string, the error and the reader after the call. -/
def ReadString (r : Pipe) (delim : Char) : GoString × Option ReadError × Pipe :=
  let line := r.data.takeWhile fun c => c != delim
  if line.length < r.data.length then
    (line ++ [delim], none, { r with data := r.data.drop (line.length + 1) })
  else (r.data, some r.ending, { r with data := [] })

/-- The loop of a reader goroutine of `run`: the lines sent on the channel and the
diagnostic printed when a read fails; `what` is `stdout` or `stderr`. -/
def readLoop (what : GoString) : Nat → Pipe → List GoString × Option GoString
  | 0, _ => ([], none)
  | fuel + 1, r =>
    let res := ReadString r '\n'
    match res.2.1 with
    | some ReadError.EOF => ([], none)
    | some (ReadError.other msg) => ([], some ("Error reading from ".data ++ what ++ ": ".data ++ msg))
    | none =>
      let rest := readLoop what fuel res.2.2
      (res.1 :: rest.1, rest.2)

/-- The lines a reader goroutine forwards for a stream. -/
def readerLines (what : GoString) (r : Pipe) : List GoString :=
  (readLoop what (r.data.length + 1) r).1

/-- Interleaving of the sends of three goroutines: each entry of the schedule names
the goroutine (modulo 3) that sends next; when the schedule is used up the
remaining sends follow goroutine by goroutine. -/
def interleave : List Nat → List Event → List Event → List Event → List Event
  | [], a, b, c => a ++ b ++ c
  | n :: ns, a, b, c =>
    if n % 3 = 0 then
      match a with
      | [] => interleave ns a b c
      | x :: a2 => x :: interleave ns a2 b c
    else if n % 3 = 1 then
      match b with
      | [] => interleave ns a b c
      | x :: b2 => x :: interleave ns a b2 c
    else
      match c with
      | [] => interleave ns a b c
      | x :: c2 => x :: interleave ns a b c2

/-- The deferred function of `run`: it sends `name` on `finishedChan` and then, when
the variable `err` of `run` is not nil, the error line on `errChan`. -/
def runDeferred (name : GoString) (err : Option GoString) : List Event :=
  Event.finished name ::
    match err with
    | none => []
    | some e => [Event.err { Host := [], Line := "Error occured: ".data ++ e ++ "\n".data }]

/-- The argument vector of `run`: `args := strings.Split(command, " ")`. -/
def runArgs (command : GoString) : List GoString :=
  stringsSplit ' ' command

/-- The method `Moon.run(name, command)`: the messages sent on the channels of `m` by `run`
and by the two reader goroutines it starts, in the order `sched` lets them
through. `exec` is `exec.Command` together with the answers of the operating
system. The process is taken to exit, so that `cmd.Wait()` returns. -/
def run (exec : GoString → List GoString → Cmd) (sched : List Nat)
    (name command : GoString) : List Event :=
  -- var err error
  let err : Option GoString := none
  let args := runArgs command
  let cmd := exec (args.headD []) (args.drop 1)
  match cmd.StdoutPipe with
  | Except.error e =>
    let err := some ("can't get stdout pipe for command: ".data ++ e)
    runDeferred name err
  | Except.ok stdout =>
    match cmd.StderrPipe with
    | Except.error e =>
      let err := some ("can't get stderr pipe for command: ".data ++ e)
      runDeferred name err
    | Except.ok stderr =>
      -- `if err := cmd.Start(); err != nil` declares a second variable `err`;
      -- the assignment in its body sets that one and `err` of `run` stays nil
      match cmd.Start with
      | some e =>
        let _err2 := some ("Error occured during start: ".data ++ e ++ "\n".data)
        runDeferred name err
      | none =>
        Event.started name ::
          interleave sched (runDeferred name err)
            ((readerLines "stdout".data stdout).map fun s => Event.out { Host := name, Line := s })
            ((readerLines "stderr".data stderr).map fun s => Event.err { Host := name, Line := s })

/-! ## moon.go: the event dispatcher -/

/-- The filters built from the command line: `plus`, `minus` and `highlights`. -/
structure Filters where
  /-- Include patterns. -/
  plus : List Regexp
  /-- Exclude patterns (`-v`). -/
  minus : List Regexp
  /-- Highlight patterns (`-h`). -/
  highlights : List Regexp

/-- What the dispatcher reads from its surroundings: the filters, the function
`highlightf` and the clock (`now k` is the result of the call number `k` of `time.Now()`). -/
structure Config where
  /-- The filters. -/
  filters : Filters
  /-- The function `highlightf`. -/
  highlightf : GoString → GoString
  /-- The clock. -/
  now : Nat → Time

/-- State of the dispatcher goroutine. -/
structure State where
  /-- The counter `numproc`. -/
  numproc : Int
  /-- Number of calls of `time.Now()` so far. -/
  clock : Nat
  /-- Chunks written to the terminal, oldest first. -/
  stdout : List GoString
  /-- Chunks written to the log writer `w`, oldest first. -/
  w : List GoString

/-- The initial state: `numproc := 0`, nothing written. -/
def State.init : State := { numproc := 0, clock := 0, stdout := [], w := [] }

/-- The call `fmt.Printf(format)` without operands. -/
def State.Printf (st : State) (format : GoString) : State :=
  { st with stdout := st.stdout ++ [fmtSprintf format] }

/-- The call `fmt.Fprintf(w, format)` without operands. -/
def State.Fprintf (st : State) (format : GoString) : State :=
  { st with w := st.w ++ [fmtSprintf format] }

/-- The format of a line on the terminal. -/
def terminalFormat : GoString :=
  "%\x7bcolor:2;hiyellow;bg-blue\x7d%\x7bhost\x7d%\x7bcolor:reset\x7d %\x7btime:15:04:05.000\x7d  ▶ %\x7bmessage\x7d".data

/-- The format of an entry of the log. -/
def logFormat : GoString :=
  "%\x7bhost\x7d %\x7btime:15:04:05.000\x7d  ▶ %\x7bmessage\x7d".data

/-- Erase the current line and move the cursor to its start: the two `Printf` calls
that open `print` and the lifecycle cases. -/
def clearLine (st : State) : State :=
  (st.Printf "\x1b[2K".data).Printf "\x1b[999D".data

/-- The line of `print` after the loop over `highlights`. -/
def highlight (cfg : Config) (line : GoString) : GoString :=
  cfg.filters.highlights.foldl (fun l r => r.ReplaceAllString l (cfg.highlightf "$0".data)) line

/-- The closure `print` of the dispatcher. -/
def print (cfg : Config) (st : State) (s : Print) : State :=
  let st := clearLine st
  if !cfg.filters.plus.isEmpty &&
      !(cfg.filters.plus.foldl (fun m r => m || r.MatchString s.Line) false) then st
  else
    let line := highlight cfg s.Line
    if cfg.filters.minus.any fun r => r.MatchString line then st
    else
      { st with clock := st.clock + 1 }.Printf
        (String (cfg.now st.clock) terminalFormat [Message line, Host s.Host])

/-- The closure `banner` of the dispatcher. -/
def banner (cfg : Config) (st : State) : State :=
  let d := (cfg.now st.clock).Format "15:04:05".data
  { st with
    clock := st.clock + 1
    stdout := st.stdout ++
      ["\x1b[64;44mMoon ▶ running (".data ++ fmtInt st.numproc ++ ") ▶ \x1b[0m".data,
       "\x1b[99C".data,
       "\x1b[".data ++ fmtInt ((d.length : Int) - 1) ++ "D".data,
       "\x1b[;30;1m".data ++ d ++ "\x1b[0m".data] }

/-- The status line of a lifecycle event (`started` or `finished`). -/
def status (cfg : Config) (st : State) (message host : GoString) : State :=
  { clearLine st with clock := st.clock + 1 }.Printf
    (String (cfg.now st.clock) (terminalFormat ++ "\n".data) [Message message, Host host])

/-- One iteration of the `select` loop of the dispatcher, for the message received. -/
def handle (cfg : Config) (st : State) : Event → State
  | Event.started s =>
    banner cfg (status cfg { st with numproc := wrapInt64 (st.numproc + 1) } "started".data s)
  | Event.finished s =>
    banner cfg (status cfg { st with numproc := wrapInt64 (st.numproc - 1) } "finished".data s)
  | Event.out s =>
    let st := print cfg st s
    banner cfg ({ st with clock := st.clock + 1 }.Fprintf
      (String (cfg.now st.clock) logFormat [Message s.Line, Host s.Host]))
  | Event.err s =>
    let st := print cfg st s
    banner cfg ({ st with clock := st.clock + 1 }.Fprintf
      (String (cfg.now st.clock) logFormat [Message s.Line, Host s.Host]))

/-- The dispatcher loop over a sequence of received messages. -/
def dispatch (cfg : Config) (st : State) (events : List Event) : State :=
  events.foldl (handle cfg) st

/-! ## moon.go: the intake loop -/

/-- A run-time panic of Go. -/
inductive Panic where
  /-- Index out of range `[index]` with length `len`. -/
  | indexOutOfRange (index len : Nat)
  /-- Slice bounds out of range `[low:]` with length `len`. -/
  | sliceOutOfRange (low len : Nat)
deriving DecidableEq

deriving instance DecidableEq for Except

/-- The index expression `xs[i]`. -/
def goIndex {α : Type} (xs : List α) (i : Nat) : Except Panic α :=
  match xs.get? i with
  | some x => Except.ok x
  | none => Except.error (Panic.indexOutOfRange i xs.length)

/-- The slice expression `xs[i:]`. -/
def goSliceFrom {α : Type} (xs : List α) (i : Nat) : Except Panic (List α) :=
  if i ≤ xs.length then Except.ok (xs.drop i) else Except.error (Panic.sliceOutOfRange i xs.length)

/-- The statement `go m.run(name, command)`. -/
structure Launch where
  /-- First argument of `run`. -/
  name : GoString
  /-- Second argument of `run`. -/
  command : GoString
deriving DecidableEq

/-- The body of the intake loop for one line of the scanner: `none` when the line is
skipped (`continue`), the command launched otherwise, or the panic raised. -/
def intakeLine (text : GoString) : Except Panic (Option Launch) :=
  let s := stringsTrimSpace text
  if stringsHasPrefix s "#".data then Except.ok none
  else if s = [] then Except.ok none
  else
    let parts := stringsSplit ',' s
    -- operands of the diagnostic line: parts[0], parts[1:]
    match goIndex parts 0, goSliceFrom parts 1 with
    | Except.error p, _ => Except.error p
    | _, Except.error p => Except.error p
    | Except.ok _, Except.ok _ =>
      -- go m.run(parts[0], parts[1])
      match goIndex parts 0, goIndex parts 1 with
      | Except.error p, _ => Except.error p
      | _, Except.error p => Except.error p
      | Except.ok p0, Except.ok p1 => Except.ok (some { name := p0, command := p1 })

/-- The operands of the diagnostic line `Starting (%s): %+v` that the intake loop prints
before the launch: `parts[0]` and `parts[1:]`; `none` when the line is skipped. -/
def intakeDiagnostic (text : GoString) : Except Panic (Option (GoString × List GoString)) :=
  let s := stringsTrimSpace text
  if stringsHasPrefix s "#".data then Except.ok none
  else if s = [] then Except.ok none
  else
    let parts := stringsSplit ',' s
    match goIndex parts 0, goSliceFrom parts 1 with
    | Except.error p, _ => Except.error p
    | _, Except.error p => Except.error p
    | Except.ok p0, Except.ok ps => Except.ok (some (p0, ps))

/-- The intake loop over the lines of the scanner: the commands launched, in order,
or the panic that ends the program. -/
def intake : List GoString → Except Panic (List Launch)
  | [] => Except.ok []
  | text :: rest =>
    match intakeLine text with
    | Except.error p => Except.error p
    | Except.ok l =>
      match intake rest with
      | Except.error p => Except.error p
      | Except.ok ls => Except.ok (l.toList ++ ls)

/-! ## Vocabulary of the statements and concrete inputs -/

/-- The text of `s` before its first `sep` (all of `s` when it has none). -/
def beforeFirst (sep : Char) (s : GoString) : GoString :=
  s.takeWhile fun c => c != sep

/-- The text of `s` after its first `sep` (empty when it has none). -/
def afterFirst (sep : Char) (s : GoString) : GoString :=
  (s.dropWhile fun c => c != sep).drop 1

/-- Do both pipes get created and does the process start. -/
def Cmd.launches (cmd : Cmd) : Bool :=
  cmd.StdoutPipe.toBool && cmd.StderrPipe.toBool && cmd.Start.isNone

/-- The command of `run`: `cmd := exec.Command(args[0], args[1:]...)`. -/
def runCmd (exec : GoString → List GoString → Cmd) (command : GoString) : Cmd :=
  exec ((runArgs command).headD []) ((runArgs command).drop 1)

/-- Is the message a send on `startedChan`. -/
def Event.isStarted : Event → Bool
  | Event.started _ => true
  | _ => false

/-- Is the message a send on `finishedChan`. -/
def Event.isFinished : Event → Bool
  | Event.finished _ => true
  | _ => false

/-- Number of Started events minus number of Finished events of a sequence. -/
def startedMinusFinished (events : List Event) : Int :=
  (events.countP Event.isStarted : Int) - (events.countP Event.isFinished : Int)

/-- A system without the requested executable: the pipes are created, `Start` fails. -/
def execNotFound : GoString → List GoString → Cmd := fun name _ =>
  { StdoutPipe := Except.ok { data := [], ending := ReadError.EOF }
    StderrPipe := Except.ok { data := [], ending := ReadError.EOF }
    Start := some ("exec: \"".data ++ name ++ "\": executable file not found in $PATH".data) }

/-- A system on which every command starts and exits; its stdout pipe delivers `out`
and then a clean end of stream, its stderr pipe a clean end of stream at once
(the readers are taken to reach the end before `cmd.Wait()` closes the pipes). -/
def execPrints (out : GoString) : GoString → List GoString → Cmd := fun _ _ =>
  { StdoutPipe := Except.ok { data := out, ending := ReadError.EOF }
    StderrPipe := Except.ok { data := [], ending := ReadError.EOF }
    Start := none }

/-- A clock that stands at noon. -/
def noon : Time where
  Format layout := if layout = "15:04:05.000".data then "12:00:00.000".data else "12:00:00".data

/-- A dispatcher configuration with the given filters, colours enabled, at noon. -/
def configOf (plus minus highlights : List Regexp) : Config where
  filters := { plus := plus, minus := minus, highlights := highlights }
  highlightf := highlightSprintf
  now := fun _ => noon

/-! ## Splitting at a separator -/

theorem stringsSplit_ne_nil (sep : Char) (s : GoString) : stringsSplit sep s ≠ [] := by
  induction s with
  | nil => simp [stringsSplit]
  | cons c cs ih =>
    unfold stringsSplit
    split
    · simp
    · split <;> simp

theorem stringsSplit_cons_sep (sep : Char) (cs : GoString) :
    stringsSplit sep (sep :: cs) = [] :: stringsSplit sep cs := by
  simp [stringsSplit]

theorem stringsSplit_cons_ne (sep c : Char) (cs : GoString) (h : c ≠ sep) :
    ∃ p ps, stringsSplit sep cs = p :: ps ∧ stringsSplit sep (c :: cs) = (c :: p) :: ps := by
  cases hs : stringsSplit sep cs with
  | nil => exact absurd hs (stringsSplit_ne_nil sep cs)
  | cons p ps => exact ⟨p, ps, rfl, by simp [stringsSplit, h, hs]⟩

theorem stringsJoin_cons (sep : Char) (p : GoString) (ps : List GoString) (h : ps ≠ []) :
    stringsJoin sep (p :: ps) = p ++ sep :: stringsJoin sep ps := by
  cases ps with
  | nil => exact absurd rfl h
  | cons q qs => rfl

theorem stringsJoin_stringsSplit (sep : Char) (s : GoString) :
    stringsJoin sep (stringsSplit sep s) = s := by
  induction s with
  | nil => rfl
  | cons c cs ih =>
    by_cases h : c = sep
    · subst h
      rw [stringsSplit_cons_sep, stringsJoin_cons _ _ _ (stringsSplit_ne_nil _ _), ih]
      rfl
    · obtain ⟨p, ps, h1, h2⟩ := stringsSplit_cons_ne sep c cs h
      rw [h2]
      rw [h1] at ih
      cases ps with
      | nil =>
        simp only [stringsJoin] at ih ⊢
        rw [ih]
      | cons q qs =>
        simp only [stringsJoin] at ih ⊢
        rw [← ih]
        rfl

theorem stringsSplit_no_sep (sep : Char) (s : GoString) :
    ∀ p ∈ stringsSplit sep s, sep ∉ p := by
  induction s with
  | nil => simp [stringsSplit]
  | cons c cs ih =>
    by_cases h : c = sep
    · subst h
      rw [stringsSplit_cons_sep]
      intro p hp
      rcases List.mem_cons.mp hp with rfl | hp
      · simp
      · exact ih p hp
    · obtain ⟨p, ps, h1, h2⟩ := stringsSplit_cons_ne sep c cs h
      rw [h2]
      rw [h1] at ih
      intro q hq
      rcases List.mem_cons.mp hq with rfl | hq
      · intro hmem
        rcases List.mem_cons.mp hmem with e | hmem
        · exact h e.symm
        · exact ih p (List.mem_cons_self _ _) hmem
      · exact ih q (List.mem_cons_of_mem _ hq)

/-- The first piece is the text before the first separator; the other pieces are the
pieces of the text after it. -/
theorem stringsSplit_structure (sep : Char) (s : GoString) :
    stringsSplit sep s =
      beforeFirst sep s :: (if sep ∈ s then stringsSplit sep (afterFirst sep s) else []) := by
  unfold beforeFirst afterFirst
  induction s with
  | nil => simp [stringsSplit]
  | cons c cs ih =>
    by_cases h : c = sep
    · subst h
      simp [stringsSplit]
    · obtain ⟨p, ps, h1, h2⟩ := stringsSplit_cons_ne sep c cs h
      rw [h2]
      rw [h1] at ih
      have hne : (c != sep) = true := by simpa using h
      have hmem : (sep ∈ c :: cs) ↔ sep ∈ cs := by
        simp [List.mem_cons, Ne.symm h]
      injection ih with hp hps
      simp only [List.takeWhile_cons, List.dropWhile_cons, hne, if_true, hmem]
      rw [← hp, ← hps]

/-! ## The argument vector of `run` -/

/-- Claim C10, as the code has it: for every command string the argument vector of
`Moon.run` is the sequence of pieces between single space characters. It is
never empty, joining it with single spaces gives back the command, no piece
contains a space, and the executable (the first piece) is the text before the
first space. -/
theorem runArgs_spec (command : GoString) :
    runArgs command ≠ [] ∧
    stringsJoin ' ' (runArgs command) = command ∧
    (∀ a ∈ runArgs command, ' ' ∉ a) ∧
    (runArgs command).headD [] = beforeFirst ' ' command := by
  refine ⟨stringsSplit_ne_nil _ _, stringsJoin_stringsSplit _ _, stringsSplit_no_sep _ _, ?_⟩
  unfold runArgs
  rw [stringsSplit_structure]
  rfl

/-- Claim C10 fails as stated: two spaces in a row give an empty token, a tab does
not separate, and a leading space makes the executable empty. -/
theorem runArgs_empty_token :
    ([] : GoString) ∈ runArgs "echo  hi".data ∧
    runArgs "echo\thi".data = ["echo\thi".data] ∧
    (runArgs " echo hi".data).headD "?".data = [] := by
  decide

/-! ## The intake loop -/

/-- What the intake loop hands to `run`: for a line that after trimming is non-empty,
does not start with `#` and contains a comma, the text before the first comma
as host and the text between the first comma and the next one (or the end of
the line) as command. With exactly one comma that is the whole text after it;
what follows a second comma is lost. -/
theorem intakeLine_launch (text : GoString)
    (hne : stringsTrimSpace text ≠ [])
    (hhash : stringsHasPrefix (stringsTrimSpace text) "#".data = false)
    (hcomma : ',' ∈ stringsTrimSpace text) :
    intakeLine text = Except.ok (some
      { name := beforeFirst ',' (stringsTrimSpace text)
        command := beforeFirst ',' (afterFirst ',' (stringsTrimSpace text)) }) := by
  unfold intakeLine
  simp only [hhash, hne, if_false, Bool.false_eq_true]
  rw [stringsSplit_structure ',' (stringsTrimSpace text), if_pos hcomma,
    stringsSplit_structure ',' (afterFirst ',' (stringsTrimSpace text))]
  simp [goIndex, goSliceFrom]

/-- The line `  web1,echo a,b ` meets the three conditions and launches `echo a` on
`web1`. -/
theorem intakeLine_launch_witness :
    stringsTrimSpace "  web1,echo a,b ".data ≠ [] ∧
    stringsHasPrefix (stringsTrimSpace "  web1,echo a,b ".data) "#".data = false ∧
    ',' ∈ stringsTrimSpace "  web1,echo a,b ".data ∧
    intakeLine "  web1,echo a,b ".data =
      Except.ok (some { name := "web1".data, command := "echo a".data }) :=
  ⟨by decide, by decide, by decide,
   intakeLine_launch "  web1,echo a,b ".data (by decide) (by decide) (by decide)⟩

/-- Claim C8: a line with a second comma. On `web1,echo a,b` the diagnostic line announces
the parts `echo a` and `b`, but the command handed to `run` is `echo a` alone,
not the whole text `echo a,b` after the first comma: the rest is dropped. -/
theorem intakeLine_second_comma :
    intakeDiagnostic "web1,echo a,b".data =
      Except.ok (some ("web1".data, ["echo a".data, "b".data])) ∧
    stringsTrimSpace "web1,echo a,b".data ≠ [] ∧
    stringsHasPrefix (stringsTrimSpace "web1,echo a,b".data) "#".data = false ∧
    ',' ∈ stringsTrimSpace "web1,echo a,b".data ∧
    afterFirst ',' (stringsTrimSpace "web1,echo a,b".data) = "echo a,b".data ∧
    intakeLine "web1,echo a,b".data =
      Except.ok (some { name := "web1".data, command := "echo a".data }) ∧
    intakeLine "web1,echo a,b".data ≠
      Except.ok (some
        { name := beforeFirst ',' (stringsTrimSpace "web1,echo a,b".data)
          command := afterFirst ',' (stringsTrimSpace "web1,echo a,b".data) }) := by
  decide

/-- Claim C9: a line without a comma. The expression `parts[1]` panics with an index out
of range, which ends the intake loop: the valid line that follows is never
launched. -/
theorem intake_no_comma_panics :
    intakeLine "hostonly".data = Except.error (Panic.indexOutOfRange 1 1) ∧
    intake ["hostonly".data, "web1,echo hi".data] = Except.error (Panic.indexOutOfRange 1 1) ∧
    intake ["web1,echo hi".data] =
      Except.ok [{ name := "web1".data, command := "echo hi".data }] := by
  decide

/-! ## The command runner -/

theorem count_interleave (e : Event) (sched : List Nat) :
    ∀ a b c : List Event,
      (interleave sched a b c).count e = a.count e + b.count e + c.count e := by
  induction sched with
  | nil => intro a b c; simp [interleave, Nat.add_assoc]
  | cons n ns ih =>
    intro a b c
    unfold interleave
    split
    · cases a with
      | nil => simpa using ih [] b c
      | cons x a2 =>
        simp only [List.count_cons, ih]
        omega
    · split
      · cases b with
        | nil => simpa using ih a [] c
        | cons x b2 =>
          simp only [List.count_cons, ih]
          omega
      · cases c with
        | nil => simpa using ih a b []
        | cons x c2 =>
          simp only [List.count_cons, ih]
          omega

theorem count_takeWhile_zero (e : Event) (p : Event → Bool) (l : List Event)
    (h : l.count e = 0) : (l.takeWhile p).count e = 0 := by
  have := (List.takeWhile_prefix p (l := l)).sublist.count_le e
  omega

theorem run_launched (exec : GoString → List GoString → Cmd) (sched : List Nat)
    (name command : GoString) (h : (runCmd exec command).launches = true) :
    ∃ outs errs : List Print,
      run exec sched name command =
        Event.started name ::
          interleave sched [Event.finished name] (outs.map Event.out) (errs.map Event.err) := by
  dsimp only [run, runCmd, Cmd.launches, runDeferred] at h ⊢
  generalize exec ((runArgs command).headD []) (List.drop 1 (runArgs command)) = cmd at h ⊢
  obtain ⟨so, se, st⟩ := cmd
  cases so with
  | error e => simp [Except.toBool] at h
  | ok stdout =>
    cases se with
    | error e => simp [Except.toBool] at h
    | ok stderr =>
      cases st with
      | some e => simp at h
      | none =>
        exact ⟨(readerLines "stdout".data stdout).map fun s => { Host := name, Line := s },
          (readerLines "stderr".data stderr).map fun s => { Host := name, Line := s },
          by simp [List.map_map, Function.comp_def]⟩

theorem run_not_launched (exec : GoString → List GoString → Cmd) (sched : List Nat)
    (name command : GoString) (h : (runCmd exec command).launches = false) :
    ∃ tail : List Print,
      run exec sched name command = Event.finished name :: tail.map Event.err := by
  dsimp only [run, runCmd, Cmd.launches, runDeferred] at h ⊢
  generalize exec ((runArgs command).headD []) (List.drop 1 (runArgs command)) = cmd at h ⊢
  obtain ⟨so, se, st⟩ := cmd
  cases so with
  | error e => exact ⟨[_], rfl⟩
  | ok stdout =>
    cases se with
    | error e => exact ⟨[_], rfl⟩
    | ok stderr =>
      cases st with
      | some e => exact ⟨[], rfl⟩
      | none => simp [Except.toBool] at h

/-- The lifecycle events `run` sends, path by path: one Finished event for `name` on every
path; one Started event for `name`, before the Finished event, when both pipes
are created and the process starts, and none on the three failure paths, where
the Finished event therefore has no Started event to match. -/
theorem run_lifecycle (exec : GoString → List GoString → Cmd) (sched : List Nat)
    (name command : GoString) :
    (run exec sched name command).count (Event.finished name) = 1 ∧
    (run exec sched name command).count (Event.started name) =
      (if (runCmd exec command).launches then 1 else 0) ∧
    ((run exec sched name command).takeWhile fun e => e != Event.finished name).count
        (Event.started name) =
      (run exec sched name command).count (Event.started name) := by
  have houts : ∀ (e : Event) (l : List Print), (∀ p, e ≠ Event.out p) →
      (l.map Event.out).count e = 0 := by
    intro e l he
    rw [List.count_eq_zero]
    intro hm
    obtain ⟨p, _, hp⟩ := List.mem_map.mp hm
    exact he p hp.symm
  have herrs : ∀ (e : Event) (l : List Print), (∀ p, e ≠ Event.err p) →
      (l.map Event.err).count e = 0 := by
    intro e l he
    rw [List.count_eq_zero]
    intro hm
    obtain ⟨p, _, hp⟩ := List.mem_map.mp hm
    exact he p hp.symm
  cases h : (runCmd exec command).launches with
  | true =>
    obtain ⟨outs, errs, ht⟩ := run_launched exec sched name command h
    rw [ht]
    have hrest : (interleave sched [Event.finished name] (outs.map Event.out)
        (errs.map Event.err)).count (Event.started name) = 0 := by
      rw [count_interleave, houts _ _ (by simp), herrs _ _ (by simp)]
      simp
    refine ⟨?_, ?_, ?_⟩
    · rw [List.count_cons, count_interleave, houts _ _ (by simp), herrs _ _ (by simp)]
      simp
    · rw [List.count_cons, hrest]
      simp
    · have hne : (Event.started name != Event.finished name) = true := by simp
      rw [List.takeWhile_cons, if_pos hne, List.count_cons, List.count_cons, hrest,
        count_takeWhile_zero _ _ _ hrest]
  | false =>
    obtain ⟨tail, ht⟩ := run_not_launched exec sched name command h
    rw [ht]
    refine ⟨?_, ?_, ?_⟩
    · rw [List.count_cons, herrs _ _ (by simp)]
      simp
    · rw [List.count_cons, herrs _ _ (by simp)]
      simp
    · rw [List.takeWhile_cons]
      simp [herrs _ _ (show ∀ p, Event.started name ≠ Event.err p by simp)]

/-- Claim C2: the process cannot be started. `run` returns before the send on
`startedChan` while its deferred function still sends on `finishedChan`: the
events hold one Finished event for `web1` and no Started event. -/
theorem run_start_failure_no_started :
    (runCmd execNotFound "nope".data).Start ≠ none ∧
    (run execNotFound [] "web1".data "nope".data).count (Event.started "web1".data) = 0 ∧
    (run execNotFound [] "web1".data "nope".data).count (Event.finished "web1".data) = 1 := by
  decide

/-- Claim C3: the process cannot be started. The branch assigns its error to a second
variable `err`, the deferred function still sees nil, and `run` emits the
Finished event alone: no error line reaches `errChan`. A failure to create
the stdout pipe, in contrast, is reported. -/
theorem run_start_failure_unreported :
    run execNotFound [] "web1".data "nope".data = [Event.finished "web1".data] ∧
    run (fun _ _ => { StdoutPipe := Except.error "too many open files".data
                      StderrPipe := Except.error "too many open files".data
                      Start := none }) [] "web1".data "nope".data =
      [Event.finished "web1".data,
       Event.err { Host := [], Line :=
         "Error occured: can't get stdout pipe for command: too many open files\n".data }] := by
  decide

/-! ## The filters of `print` -/

theorem foldl_or_eq_any (line : GoString) (rs : List Regexp) :
    ∀ b : Bool, rs.foldl (fun m r => m || r.MatchString line) b =
      (b || rs.any fun r => r.MatchString line) := by
  induction rs with
  | nil => intro b; simp
  | cons r rs ih => intro b; simp [ih, Bool.or_assoc]

theorem clearLine_clock (st : State) : (clearLine st).clock = st.clock := rfl

theorem clearLine_w (st : State) : (clearLine st).w = st.w := rfl

theorem clearLine_numproc (st : State) : (clearLine st).numproc = st.numproc := rfl

/-- The three outcomes of `print`: dropped by the include filter, dropped by the exclude
filter, or written. -/
theorem print_cases (cfg : Config) (st : State) (s : Print) :
    print cfg st s =
      if (!cfg.filters.plus.isEmpty && !(cfg.filters.plus.any fun r => r.MatchString s.Line)) = true
      then clearLine st
      else if (cfg.filters.minus.any fun r => r.MatchString (highlight cfg s.Line)) = true then
        clearLine st
      else
        { clearLine st with clock := st.clock + 1 }.Printf
          (String (cfg.now st.clock) terminalFormat [Message (highlight cfg s.Line), Host s.Host]) := by
  unfold print
  rw [foldl_or_eq_any]
  rfl

/-- Claim C4: with a non-empty include list, `print` drops the line (it writes the two
erase sequences and nothing else) when no include pattern matches; it writes
something for the line only if an include pattern matches; and it writes the
rendered line when an include pattern matches and no exclude pattern does. -/
theorem print_include (cfg : Config) (st : State) (s : Print)
    (hplus : cfg.filters.plus ≠ []) :
    ((∀ r ∈ cfg.filters.plus, r.MatchString s.Line = false) → print cfg st s = clearLine st) ∧
    ((print cfg st s).stdout ≠ (clearLine st).stdout →
      ∃ r ∈ cfg.filters.plus, r.MatchString s.Line = true) ∧
    ((∃ r ∈ cfg.filters.plus, r.MatchString s.Line = true) →
      (∀ r ∈ cfg.filters.minus, r.MatchString (highlight cfg s.Line) = false) →
      (print cfg st s).stdout =
        (clearLine st).stdout ++
          [fmtSprintf (String (cfg.now st.clock) terminalFormat
            [Message (highlight cfg s.Line), Host s.Host])]) := by
  have hdrop : (∀ r ∈ cfg.filters.plus, r.MatchString s.Line = false) →
      print cfg st s = clearLine st := by
    intro hno
    have hany : (cfg.filters.plus.any fun r => r.MatchString s.Line) = false := by
      rw [List.any_eq_false]
      intro r hr
      simp [hno r hr]
    have hemp : cfg.filters.plus.isEmpty = false := by
      cases hp : cfg.filters.plus with
      | nil => exact absurd hp hplus
      | cons r rs => rfl
    rw [print_cases, if_pos (by simp [hany, hemp])]
  refine ⟨hdrop, ?_, ?_⟩
  · intro hw
    by_contra hnone
    apply hw
    rw [hdrop]
    intro r hr
    cases hm : r.MatchString s.Line with
    | false => rfl
    | true => exact absurd ⟨r, hr, hm⟩ hnone
  · rintro ⟨r, hr, hm⟩ hminus
    have h1 : (cfg.filters.plus.any fun r => r.MatchString s.Line) = true :=
      List.any_eq_true.mpr ⟨r, hr, hm⟩
    have h2 : (cfg.filters.minus.any fun r => r.MatchString (highlight cfg s.Line)) = false := by
      rw [List.any_eq_false]
      intro r hr
      simp [hminus r hr]
    rw [print_cases, if_neg (by simp [h1]), if_neg (by simp [h2])]
    rfl

/-- Include `ERROR`: the line `INFO: ok` is dropped and the line `ERROR: bad` is written. -/
theorem print_include_witness :
    (configOf [Regexp.literal 'E' "RROR".data] [] []).filters.plus ≠ [] ∧
    print (configOf [Regexp.literal 'E' "RROR".data] [] []) State.init
        { Host := "web1".data, Line := "INFO: ok\n".data } = clearLine State.init ∧
    (print (configOf [Regexp.literal 'E' "RROR".data] [] []) State.init
        { Host := "web1".data, Line := "ERROR: bad\n".data }).stdout =
      ["\x1b[2K".data, "\x1b[999D".data,
       "\x1b[2;93;44mweb1\x1b[0m 12:00:00.000  ▶ ERROR: bad\n".data] :=
  ⟨by simp [configOf],
   (print_include (configOf [Regexp.literal 'E' "RROR".data] [] []) State.init
      { Host := "web1".data, Line := "INFO: ok\n".data } (by simp [configOf])).1 (by decide),
   ((print_include (configOf [Regexp.literal 'E' "RROR".data] [] []) State.init
      { Host := "web1".data, Line := "ERROR: bad\n".data } (by simp [configOf])).2.2
        (by decide) (by decide)).trans (by decide)⟩

/-- Claim C5, as the code has it: a line that, after the highlight patterns have rewritten
it, matches an exclude pattern is not written, even when it matches an include
pattern. Without highlight patterns the rewritten line is the original line. -/
theorem print_exclude (cfg : Config) (st : State) (s : Print) :
    ((∃ r ∈ cfg.filters.minus, r.MatchString (highlight cfg s.Line) = true) →
      print cfg st s = clearLine st) ∧
    (cfg.filters.highlights = [] →
      (∃ r ∈ cfg.filters.minus, r.MatchString s.Line = true) →
      print cfg st s = clearLine st) := by
  have hmain : (∃ r ∈ cfg.filters.minus, r.MatchString (highlight cfg s.Line) = true) →
      print cfg st s = clearLine st := by
    rintro ⟨r, hr, hm⟩
    have h2 : (cfg.filters.minus.any fun r => r.MatchString (highlight cfg s.Line)) = true :=
      List.any_eq_true.mpr ⟨r, hr, hm⟩
    rw [print_cases]
    by_cases hc : (!cfg.filters.plus.isEmpty &&
        !(cfg.filters.plus.any fun r => r.MatchString s.Line)) = true
    · rw [if_pos hc]
    · rw [if_neg hc, if_pos h2]
  refine ⟨hmain, ?_⟩
  intro hh hex
  apply hmain
  have : highlight cfg s.Line = s.Line := by simp [highlight, hh]
  rw [this]
  exact hex

/-- Include `ERROR`, exclude `DEBUG`: a line that matches both is dropped, with and
without a highlight pattern. -/
theorem print_exclude_witness :
    (Regexp.literal 'E' "RROR".data).MatchString "ERROR: DEBUG fail\n".data = true ∧
    (Regexp.literal 'D' "EBUG".data).MatchString
      (highlight (configOf [Regexp.literal 'E' "RROR".data] [Regexp.literal 'D' "EBUG".data]
        [Regexp.literal 'f' "ail".data]) "ERROR: DEBUG fail\n".data) = true ∧
    print (configOf [Regexp.literal 'E' "RROR".data] [Regexp.literal 'D' "EBUG".data]
        [Regexp.literal 'f' "ail".data]) State.init
        { Host := "web1".data, Line := "ERROR: DEBUG fail\n".data } = clearLine State.init ∧
    print (configOf [Regexp.literal 'E' "RROR".data] [Regexp.literal 'D' "EBUG".data] [])
        State.init { Host := "web1".data, Line := "ERROR: DEBUG\n".data } = clearLine State.init :=
  ⟨by decide, by decide,
   (print_exclude _ State.init _).1 (by decide), (print_exclude _ State.init _).2 rfl (by decide)⟩

/-- Claim C5 fails as stated: the original line matches the exclude pattern `DEBUG`, the
highlight pattern `BU` splits that text with colour sequences before the
exclude filter runs, and the line is written. -/
theorem print_exclude_after_highlight :
    (Regexp.literal 'D' "EBUG".data).MatchString "DEBUG x\n".data = true ∧
    (print (configOf [] [Regexp.literal 'D' "EBUG".data] [Regexp.literal 'B' "U".data])
        State.init { Host := "web1".data, Line := "DEBUG x\n".data }).stdout =
      ["\x1b[2K".data, "\x1b[999D".data,
       "\x1b[2;93;44mweb1\x1b[0m 12:00:00.000  ▶ DE\x1b[30;43mBU\x1b[0mG x\n".data] := by
  decide

/-! ## The counter of active processes -/

theorem wrapInt64_add (a b : Int) : wrapInt64 (wrapInt64 a + b) = wrapInt64 (a + b) := by
  unfold wrapInt64
  norm_num
  omega

theorem print_numproc (cfg : Config) (st : State) (s : Print) :
    (print cfg st s).numproc = st.numproc := by
  rw [print_cases]
  split_ifs <;> rfl

theorem handle_numproc (cfg : Config) (st : State) (e : Event) :
    (handle cfg st e).numproc =
      match e with
      | Event.started _ => wrapInt64 (st.numproc + 1)
      | Event.finished _ => wrapInt64 (st.numproc - 1)
      | _ => st.numproc := by
  cases e with
  | started n => rfl
  | finished n => rfl
  | out p => exact print_numproc cfg st p
  | err p => exact print_numproc cfg st p

theorem wrapInt64_idem (a : Int) : wrapInt64 (wrapInt64 a) = wrapInt64 a := by
  have := wrapInt64_add a 0
  simpa using this

/-- The counter follows the number of Started events minus the number of Finished events,
within the range of `int`. -/
theorem dispatch_numproc (cfg : Config) (events : List Event) :
    ∀ st : State, wrapInt64 st.numproc = st.numproc →
      (dispatch cfg st events).numproc =
        wrapInt64 (st.numproc + startedMinusFinished events) := by
  induction events with
  | nil =>
    intro st h
    simp [dispatch, startedMinusFinished, h]
  | cons e es ih =>
    intro st h
    have hstep : dispatch cfg st (e :: es) = dispatch cfg (handle cfg st e) es := rfl
    have hrange : wrapInt64 (handle cfg st e).numproc = (handle cfg st e).numproc := by
      rw [handle_numproc]
      cases e <;> simp [wrapInt64_idem, h]
    rw [hstep, ih _ hrange, handle_numproc]
    cases e with
    | started n =>
      simp only [startedMinusFinished, List.countP_cons, Event.isStarted, Event.isFinished]
      rw [wrapInt64_add]
      congr 1
      push_cast
      simp
      ring
    | finished n =>
      simp only [startedMinusFinished, List.countP_cons, Event.isStarted, Event.isFinished]
      rw [wrapInt64_add]
      congr 1
      push_cast
      simp
      ring
    | out p =>
      simp [startedMinusFinished, List.countP_cons, Event.isStarted, Event.isFinished]
    | err p =>
      simp [startedMinusFinished, List.countP_cons, Event.isStarted, Event.isFinished]

/-- From the initial state the counter is the number of Started events minus the number of
Finished events, reduced to the range of `int`. -/
theorem dispatch_numproc_init (cfg : Config) (events : List Event) :
    (dispatch cfg State.init events).numproc = wrapInt64 (startedMinusFinished events) := by
  rw [dispatch_numproc cfg events State.init (by decide)]
  simp [State.init]

/-- Claim C1: a command that cannot be started. `run` emits a Finished event without a
Started event, and the dispatcher, starting from `numproc = 0`, decrements the
counter of active processes to `-1`. -/
theorem numproc_negative_after_failed_start :
    startedMinusFinished (run execNotFound [] "web1".data "nope".data) = -1 ∧
    (dispatch (configOf [] [] []) State.init
      (run execNotFound [] "web1".data "nope".data)).numproc = -1 := by
  decide

/-! ## The log -/

theorem print_w (cfg : Config) (st : State) (s : Print) : (print cfg st s).w = st.w := by
  rw [print_cases]
  split_ifs <;> rfl

theorem formatReFindAll_logFormat :
    formatReFindAll logFormat =
      [{ m0 := 0, m1 := 7, m2 := 2, m3 := 6, m45 := none },
       { m0 := 8, m1 := 28, m2 := 10, m3 := 14, m45 := some (15, 27) },
       { m0 := 32, m1 := 42, m2 := 34, m3 := 41, m45 := none }] := by
  decide

/-- The entry `String` renders for the log: host, time, separator and the message as it
is. -/
theorem String_logFormat (t : Time) (h l : GoString) :
    String t logFormat [Message l, Host h] =
      h ++ " ".data ++ t.Format "15:04:05.000".data ++ "  ▶ ".data ++ l := by
  unfold String
  rw [formatReFindAll_logFormat]
  simp [logFormat, slice, layouts, formatters, Message, Host, hostFormatter, timeFormatter,
    messageFormatter]

/-- Every Output event appends exactly one chunk to the log, whatever the filters: the
rendered entry, read by `Fprintf` as a format string. -/
theorem handle_out_w (cfg : Config) (st : State) (s : Print) :
    (handle cfg st (Event.out s)).w =
      st.w ++ [fmtSprintf (s.Host ++ " ".data ++
        (cfg.now (print cfg st s).clock).Format "15:04:05.000".data ++ "  ▶ ".data ++ s.Line)] := by
  rw [← String_logFormat, ← print_w cfg st s]
  rfl

/-- Every Error event appends exactly one chunk to the log, whatever the filters. -/
theorem handle_err_w (cfg : Config) (st : State) (s : Print) :
    (handle cfg st (Event.err s)).w =
      st.w ++ [fmtSprintf (s.Host ++ " ".data ++
        (cfg.now (print cfg st s).clock).Format "15:04:05.000".data ++ "  ▶ ".data ++ s.Line)] := by
  rw [← String_logFormat, ← print_w cfg st s]
  rfl

theorem fmtSprintfLoop_of_not_mem (format : GoString) :
    ∀ fuel, format.length < fuel → '%' ∉ format → fmtSprintfLoop fuel format = format := by
  induction format with
  | nil => intro fuel h _; cases fuel <;> simp [fmtSprintfLoop] at h ⊢
  | cons c cs ih =>
    intro fuel h hmem
    cases fuel with
    | zero => simp at h
    | succ n =>
      have hc : c ≠ '%' := fun e => hmem (e ▸ List.mem_cons_self _ _)
      have hcs : '%' ∉ cs := fun e => hmem (List.mem_cons_of_mem _ e)
      have hlen : cs.length < n := by simp at h; omega
      simp [fmtSprintfLoop, hc, ih n hlen hcs]

/-- A format string without a percent sign is written as it is. -/
theorem fmtSprintf_of_not_mem (format : GoString) (h : '%' ∉ format) :
    fmtSprintf format = format :=
  fmtSprintfLoop_of_not_mem format _ (Nat.lt_succ_self _) h

/-- When neither the host, the time nor the line holds a percent sign, the entry appended
to the log is the host, the time, the separator and the line, character for
character. -/
theorem handle_out_w_exact (cfg : Config) (st : State) (s : Print)
    (hhost : '%' ∉ s.Host) (hline : '%' ∉ s.Line)
    (htime : '%' ∉ (cfg.now (print cfg st s).clock).Format "15:04:05.000".data) :
    (handle cfg st (Event.out s)).w =
      st.w ++ [s.Host ++ " ".data ++
        (cfg.now (print cfg st s).clock).Format "15:04:05.000".data ++ "  ▶ ".data ++ s.Line] := by
  rw [handle_out_w, fmtSprintf_of_not_mem]
  simp only [List.mem_append, not_or]
  exact ⟨⟨⟨⟨hhost, by decide⟩, htime⟩, by decide⟩, hline⟩

/-- Claim C6: a line with a percent sign. The rendered entry is handed to `fmt.Fprintf` as
its format string, so `% d` is read as a verb without operand and the log
receives `%!d(MISSING)` in place of the text of the line. -/
theorem log_entry_percent :
    (dispatch (configOf [] [] []) State.init
      [Event.out { Host := "web1".data, Line := "50% done\n".data }]).w =
      ["web1 12:00:00.000  ▶ 50%!d(MISSING)one\n".data] ∧
    (dispatch (configOf [] [] []) State.init
      [Event.out { Host := "web1".data, Line := "50% done\n".data }]).w ≠
      ["web1 12:00:00.000  ▶ 50% done\n".data] := by
  decide

/-! ## The line readers -/

theorem takeWhile_append_delim (delim : Char) (data : GoString)
    (h : (data.takeWhile fun c => c != delim).length < data.length) :
    (data.takeWhile fun c => c != delim) ++
      delim :: data.drop ((data.takeWhile fun c => c != delim).length + 1) = data := by
  induction data with
  | nil => simp at h
  | cons c cs ih =>
    by_cases hc : c = delim
    · subst hc
      simp
    · have hne : (c != delim) = true := by simpa using hc
      simp only [List.takeWhile_cons, hne, if_true, List.length_cons, List.drop_succ_cons,
        List.cons_append] at h ⊢
      rw [ih (by omega)]

theorem not_mem_of_takeWhile_full (delim : Char) (data : GoString)
    (h : ¬ (data.takeWhile fun c => c != delim).length < data.length) : delim ∉ data := by
  induction data with
  | nil => simp
  | cons c cs ih =>
    by_cases hc : c = delim
    · subst hc
      simp at h
    · have hne : (c != delim) = true := by simpa using hc
      simp only [List.takeWhile_cons, hne, if_true, List.length_cons] at h
      intro hmem
      rcases List.mem_cons.mp hmem with e | hmem
      · exact hc e.symm
      · exact ih (by omega) hmem

theorem readLoop_flatten (what : GoString) :
    ∀ (fuel : Nat) (data : GoString), data.length < fuel →
      ∃ tail, '\n' ∉ tail ∧
        (readLoop what fuel { data := data, ending := ReadError.EOF }).1.flatten ++ tail = data := by
  intro fuel
  induction fuel with
  | zero => intro data h; simp at h
  | succ n ih =>
    intro data h
    by_cases hd : (data.takeWhile fun c => c != '\n').length < data.length
    · have hlen : (data.drop ((data.takeWhile fun c => c != '\n').length + 1)).length < n := by
        simp only [List.length_drop]
        omega
      obtain ⟨tail, ht, heq⟩ := ih _ hlen
      refine ⟨tail, ht, ?_⟩
      have hsplit := takeWhile_append_delim '\n' data hd
      simp only [readLoop, ReadString, hd, if_true, List.flatten_cons, List.append_assoc]
      rw [heq]
      simpa using hsplit
    · refine ⟨data, not_mem_of_takeWhile_full '\n' data hd, ?_⟩
      simp [readLoop, ReadString, hd]

/-- On a stream that ends with `io.EOF` the lines forwarded, put together, are the stream
up to and including its last line break; what follows that line break is not
forwarded. -/
theorem readerLines_flatten (what data : GoString) :
    ∃ tail, '\n' ∉ tail ∧
      (readerLines what { data := data, ending := ReadError.EOF }).flatten ++ tail = data :=
  readLoop_flatten what _ data (Nat.lt_succ_self _)

/-- A stream that ends with a line break is forwarded whole. -/
theorem readerLines_complete (what data : GoString) :
    (readerLines what { data := data ++ "\n".data, ending := ReadError.EOF }).flatten =
      data ++ "\n".data := by
  obtain ⟨tail, ht, heq⟩ := readerLines_flatten what (data ++ "\n".data)
  rcases List.eq_nil_or_concat tail with rfl | ⟨init, c, rfl⟩
  · simpa using heq
  · have hlast := congrArg List.getLast? heq
    have hc : c = '\n' := by
      have h2 : (some c : Option Char) = some '\n' := by
        simpa [List.concat_eq_append, List.getLast?_append] using hlast
      exact Option.some.inj h2
    subst hc
    simp at ht

/-- Claim C7: a stream whose last line has no line break. `ReadString` returns that text
together with `io.EOF`, the loop breaks on the error and the text is never
forwarded: of `ok\ndone` only `ok\n` arrives. -/
theorem reader_drops_unterminated_line :
    readerLines "stdout".data { data := "ok\ndone".data, ending := ReadError.EOF } =
      ["ok\n".data] ∧
    (readerLines "stdout".data { data := "ok\ndone".data, ending := ReadError.EOF }).flatten ≠
      "ok\ndone".data ∧
    run (execPrints "ok\ndone".data) [1, 0] "web1".data "printf ok\\ndone".data =
      [Event.started "web1".data,
       Event.out { Host := "web1".data, Line := "ok\n".data },
       Event.finished "web1".data] := by
  decide

end Moon
